import Mathlib

/-!
Shallow embedding of the watch-buddy room session coordinator:
the durable room-state store (`src/server/src/services/db.ts`) and the
per-connection socket event handlers (`src/server/src/index.ts`).

Conventions of the embedding:
* JavaScript objects with optional fields become structures whose fields are
  wrapped in `Option` (`none` = field absent / `undefined`); the nullable
  `source` field is doubly wrapped (`some none` = field present with value
  `null`).  A field assigned `undefined` is identified with an absent field:
  the two are observationally equal everywhere in this program (property reads
  yield `undefined` either way, and JSON persistence drops `undefined`
  fields before they are stored).
* The Postgres tables `rooms`, `chats`, `members` become association lists;
  primary-key upserts replace the first row with the matching key.
* Millisecond timestamps (`Date.now()`) are `Int` parameters named `now`;
  the float `time` field (seconds) is modelled as `ℚ`, which is adequate
  because the coordinator only copies it and never computes with it.
* Fallible external calls (the Postgres pool) are modelled by explicit
  failure-injection parameters on the handlers that guard them with
  `try/catch`; a `some err` argument plays the thrown error.
* `emit` effects become lists of `(socket id, message)` pairs.
  `socket.nsp.to(room)` targets every connection of the room's dynamic
  namespace and `socket.to(room)` additionally excludes the sender,
  whereas `io.to(room)` addresses the ROOT namespace: clients connect only
  to the dynamic `/room/<id>` namespaces and nothing ever joins a room of
  the root namespace, so an `io.to(room)` emit delivers to no modeled
  connection.
-/

/-- A playback source descriptor `{type, url}`. -/
structure Source where
  type : String
  url : Option String
deriving DecidableEq, Repr

/-- A playlist item `{title, url}`. -/
structure PlaylistItem where
  title : String
  url : String
deriving DecidableEq, Repr

/-- A chat sender `{uuid, name, avatar}`. -/
structure Sender where
  uuid : String
  name : String
  avatar : String
deriving DecidableEq, Repr

/-- A chat history entry as built by the coordinator and stored in `chats`. -/
structure ChatEntry where
  id : String
  sender : Sender
  text : String
  reactions : List String
  ts : Int
deriving DecidableEq, Repr

/-- A JavaScript playback-state object with possibly absent fields, as stored
in the `rooms.state` JSONB column and as passed to `upsertRoomState`.
`none` means the field is absent; for `source`, `some none` means the field
is present holding `null`. -/
structure StatePatch where
  source : Option (Option Source) := none
  isPlaying : Option Bool := none
  time : Option ℚ := none
  lastActionTs : Option Int := none
  playlist : Option (List PlaylistItem) := none
  theme : Option String := none
deriving DecidableEq, Repr

/-- The empty JavaScript object used as a patch. -/
def emptyPatch : StatePatch := {}

/-- A fully populated playback state, as returned by `getRoomState` after
merging a stored object against the default shape (`lastActionTs` has no
default, so it stays optional). -/
structure PlaybackState where
  source : Option Source
  isPlaying : Bool
  time : ℚ
  lastActionTs : Option Int
  playlist : List PlaylistItem
  theme : String
deriving DecidableEq, Repr

/-- JavaScript object-spread override for a single field: the update's field
wins when present, otherwise the base's field survives. -/
def jsOr {α : Type} (base upd : Option α) : Option α :=
  match upd with
  | some v => some v
  | none => base

/-- JavaScript shallow spread of two state objects. -/
def spreadPatch (base upd : StatePatch) : StatePatch where
  source := jsOr base.source upd.source
  isPlaying := jsOr base.isPlaying upd.isPlaying
  time := jsOr base.time upd.time
  lastActionTs := jsOr base.lastActionTs upd.lastActionTs
  playlist := jsOr base.playlist upd.playlist
  theme := jsOr base.theme upd.theme

/-- The fixed `defaultState` object of `db.ts`:
`{source: null, isPlaying: false, time: 0, playlist: [], theme: "default"}`. -/
def defaultState : StatePatch where
  source := some none
  isPlaying := some false
  time := some 0
  playlist := some []
  theme := some "default"
  lastActionTs := none

/-- The JavaScript spread of a stored object onto `defaultState`, i.e.
the fully populated view of a stored playback-state object. -/
def withDefaults (s : StatePatch) : PlaybackState where
  source := (s.source).getD none
  isPlaying := (s.isPlaying).getD false
  time := (s.time).getD 0
  lastActionTs := s.lastActionTs
  playlist := (s.playlist).getD []
  theme := (s.theme).getD "default"

/-- The JavaScript object underlying a fully populated playback state (all
five default-shape fields present; `lastActionTs` present iff it has a
value). -/
def toPatch (st : PlaybackState) : StatePatch where
  source := some st.source
  isPlaying := some st.isPlaying
  time := some st.time
  lastActionTs := st.lastActionTs
  playlist := some st.playlist
  theme := some st.theme

/-- The value of `getRoomState` when falling back to defaults. -/
def defaultFull : PlaybackState := withDefaults emptyPatch

/-- A row of the `rooms` table. -/
structure RoomRec where
  state : StatePatch
  lastActive : Int
deriving DecidableEq, Repr

/-- A row of the `members` table (its `room_id` is the association key). -/
structure MemberRec where
  uuid : String
  name : String
  avatar : String
deriving DecidableEq, Repr

/-- The durable store: the `rooms`, `chats` and `members` tables. -/
structure Db where
  rooms : List (String × RoomRec)
  chats : List (String × ChatEntry)
  members : List (String × MemberRec)
deriving DecidableEq, Repr

/-- `SELECT state, last_active FROM rooms WHERE id = $1` (primary-key lookup). -/
def findRoom (rooms : List (String × RoomRec)) (roomId : String) : Option RoomRec :=
  match rooms with
  | [] => none
  | (k, v) :: rest => if k = roomId then some v else findRoom rest roomId

/-- `getRoomState` of `db.ts`: `null` when the room row is absent, otherwise
the stored state object spread onto `defaultState`. -/
def getRoomState (db : Db) (roomId : String) : Option PlaybackState :=
  match findRoom db.rooms roomId with
  | none => none
  | some row => some (withDefaults row.state)

/-- `INSERT INTO rooms ... ON CONFLICT (id) DO UPDATE SET state, last_active`. -/
def upsertRoomRow (rooms : List (String × RoomRec)) (roomId : String)
    (st : StatePatch) (now : Int) : List (String × RoomRec) :=
  match rooms with
  | [] => [(roomId, ⟨st, now⟩)]
  | (k, v) :: rest =>
      if k = roomId then (k, ⟨st, now⟩) :: rest
      else (k, v) :: upsertRoomRow rest roomId st now

/-- `upsertRoomState` of `db.ts`: read the existing state (defaults when the
room is absent), spread the incoming patch over it, persist the merged
object with a fresh `last_active`, and return the merged object. -/
def upsertRoomState (db : Db) (roomId : String) (patch : StatePatch)
    (now : Int) : Db × StatePatch :=
  let existingState : PlaybackState := (getRoomState db roomId).getD defaultFull
  let mergedState : StatePatch := spreadPatch (toPatch existingState) patch
  ({ db with rooms := upsertRoomRow db.rooms roomId mergedState now }, mergedState)

/-- `touchRoom` of `db.ts`: `UPDATE rooms SET last_active = $1 WHERE id = $2`
(a no-op when the room row is absent). -/
def touchRoom (db : Db) (roomId : String) (now : Int) : Db :=
  { db with
    rooms := db.rooms.map fun p =>
      (p.1, if p.1 = roomId then { p.2 with lastActive := now } else p.2) }

/-- `cleanupInactiveRooms` of `db.ts`:
`DELETE FROM rooms WHERE last_active < $1` returning the deleted row count;
the schema's `ON DELETE CASCADE` removes the deleted rooms' chats and
members. -/
def cleanupInactiveRooms (db : Db) (cutoff : Int) : Db × Nat :=
  let deleted := db.rooms.filter fun p => decide (p.2.lastActive < cutoff)
  let deletedIds := deleted.map (·.1)
  let db' : Db :=
    { rooms := db.rooms.filter fun p => !decide (p.2.lastActive < cutoff)
      chats := db.chats.filter fun c => !deletedIds.contains c.1
      members := db.members.filter fun m => !deletedIds.contains m.1 }
  (db', deleted.length)

/-- `INSERT INTO chats ...` (JSONB schema branch of `saveChat`). -/
def saveChat (db : Db) (roomId : String) (entry : ChatEntry) : Db :=
  { db with chats := db.chats ++ [(roomId, entry)] }

/-- Insertion step of `ORDER BY ts ASC`. -/
def insertByTs (e : ChatEntry) : List ChatEntry → List ChatEntry
  | [] => [e]
  | x :: xs => if e.ts < x.ts then e :: x :: xs else x :: insertByTs e xs

/-- `ORDER BY ts ASC` as an insertion sort. -/
def sortByTs : List ChatEntry → List ChatEntry
  | [] => []
  | x :: xs => insertByTs x (sortByTs xs)

/-- `getChatHistory` of `db.ts` (JSONB schema branch): the room's chat rows
ordered by `ts` ascending. -/
def getChatHistory (db : Db) (roomId : String) : List ChatEntry :=
  sortByTs ((db.chats.filter fun c => c.1 = roomId).map (·.2))

/-- `addReaction` of `db.ts` (schema with a `reactions` column):
`UPDATE chats SET reactions = reactions || [emoji] WHERE id AND room_id`,
returning whether any row was updated. -/
def addReaction (db : Db) (roomId chatId emoji : String) : Db × Bool :=
  let hit := db.chats.any fun c => decide (c.2.id = chatId) && decide (c.1 = roomId)
  let db' : Db :=
    { db with
      chats := db.chats.map fun c =>
        if c.2.id = chatId ∧ c.1 = roomId then
          (c.1, { c.2 with reactions := c.2.reactions ++ [emoji] })
        else c }
  (db', hit)

/-- `INSERT INTO members ... ON CONFLICT (room_id, uuid) DO UPDATE`. -/
def addMemberRows (rows : List (String × MemberRec)) (roomId : String)
    (m : MemberRec) : List (String × MemberRec) :=
  match rows with
  | [] => [(roomId, m)]
  | (k, v) :: rest =>
      if k = roomId ∧ v.uuid = m.uuid then (k, m) :: rest
      else (k, v) :: addMemberRows rest roomId m

/-- `addMember` of `db.ts`. -/
def addMember (db : Db) (roomId : String) (m : MemberRec) : Db :=
  { db with members := addMemberRows db.members roomId m }

/-- `getUsersInRoom` of `db.ts`. -/
def getUsersInRoom (db : Db) (roomId : String) : List MemberRec :=
  (db.members.filter fun m => m.1 = roomId).map (·.2)

/-- The `last_active` column of a room row, when the row exists. -/
def roomLastActive (db : Db) (roomId : String) : Option Int :=
  (findRoom db.rooms roomId).map (·.lastActive)

/-- The `socket.data` object, populated by the `room:join` handler. -/
structure SockData where
  uuid : String
  name : String
  avatar : String
  roomId : String
deriving DecidableEq, Repr

/-- A live connection of a room namespace: its socket id, the room extracted
from the namespace name (auto-joined on connect), and its `socket.data`
(absent until `room:join` ran). -/
structure Conn where
  sid : String
  nspRoom : String
  data : Option SockData
deriving DecidableEq, Repr

/-- A `video:action` client event
`{type, source?, targetTime?, clientTimeMs}`. -/
structure VideoEvent where
  type : String
  source : Option Source
  targetTime : Option ℚ
  clientTimeMs : Int
deriving DecidableEq, Repr

/-- A `room:join` payload `{uuid, name, avatar}`. -/
structure JoinPayload where
  uuid : String
  name : String
  avatar : String
deriving DecidableEq, Repr

/-- Server-to-client messages emitted by the coordinator. -/
inductive Msg where
  | roomState (st : StatePatch)
  | chatHistory (hist : List ChatEntry)
  | chatMessage (entry : ChatEntry)
  | userList (users : List MemberRec)
  | roomError (message : String) (error : String)
  | videoAction (ev : VideoEvent) (serverTimeMs : Int)
  | webrtcOffer (fromId : Option String) (sdp : String)
  | webrtcAnswer (fromId : Option String) (sdp : String)
  | webrtcIce (fromId : Option String) (candidate : String)
  | newPeer (id name avatar : String)
  | removePeer (id : String)
  | playlistUpdate (pl : List PlaylistItem)
  | themeUpdate (theme : String)
deriving DecidableEq, Repr

/-- An emitted effect: the target socket id and the message. -/
def Emit : Type := String × Msg

/-- The connections currently in room `roomId` of the room's dynamic
namespace (broadcast targets of `socket.nsp.to(roomId)`). -/
def connsInRoom (conns : List Conn) (roomId : String) : List Conn :=
  conns.filter fun c => c.nspRoom = roomId

/-- The broadcast targets of `socket.to(roomId)`: everyone in the room's
namespace room except the sending socket. -/
def othersInRoom (conns : List Conn) (roomId senderSid : String) : List Conn :=
  conns.filter fun c => decide (c.nspRoom = roomId) && !decide (c.sid = senderSid)

/-- Whether a connection is a member of room `roomId` of the ROOT namespace.
Every modeled connection is a socket of a dynamic `/room/<id>` namespace —
the only connection handler this variant registers, and the only endpoint
clients connect to — and a namespace socket is never a member of a
root-namespace room, so this is constantly false. -/
def rootNsInRoom (c : Conn) (roomId : String) : Bool :=
  match c, roomId with
  | _, _ => false

/-- `io.to(roomId).emit(msg)`: a broadcast into room `roomId` of the ROOT
namespace.  Since no modeled connection ever joins a root-namespace room
(see `rootNsInRoom`), the delivery set of such an emit is empty — the
message is a dead letter that reaches no member of the room namespace. -/
def ioToRoom (conns : List Conn) (roomId : String) (m : Msg) : List Emit :=
  (conns.filter fun c => rootNsInRoom c roomId).map fun c => (c.sid, m)

theorem ioToRoom_eq_nil (conns : List Conn) (roomId : String) (m : Msg) :
    ioToRoom conns roomId m = [] := by
  simp [ioToRoom, rootNsInRoom]

/-- `findSocketByUUID` of the room namespace: the first namespace socket
whose `socket.data?.uuid` equals the wanted uuid. -/
def findSocketByUUID (conns : List Conn) (nspRoom uuid : String) : Option Conn :=
  (conns.filter fun c => c.nspRoom = nspRoom).find? fun s =>
    s.data.map (·.uuid) = some uuid

/-- The `video:action` handler: with no `socket.data.roomId` it returns
early; for a playback kind in `{play, pause, seek, load}` it rebuilds the
state object from `getRoomState(roomId) || {}`, overrides `source` when the
event supplies one (JavaScript `||`), sets `isPlaying` for play/pause and
keeps it otherwise, overrides `time` when a target time is supplied
(JavaScript `??`), stamps `lastActionTs` with the server receive time, and
upserts; it then touches the room and relays the event, annotated with
`serverTimeMs`, to everyone in the room but the sender. -/
def handleVideoAction (db : Db) (conns : List Conn) (sender : Conn)
    (data : VideoEvent) (now : Int) : Db × List Emit :=
  match sender.data with
  | none => (db, [])
  | some d =>
    let roomId := d.roomId
    let msg := Msg.videoAction data now
    let db1 :=
      if ["play", "pause", "seek", "load"].contains data.type then
        let st0 : StatePatch :=
          match getRoomState db roomId with
          | some s => toPatch s
          | none => emptyPatch
        let st1 : StatePatch :=
          { st0 with
            source := match data.source with
              | some s => some (some s)
              | none => st0.source
            isPlaying :=
              if data.type = "play" then some true
              else if data.type = "pause" then some false
              else st0.isPlaying
            time := match data.targetTime with
              | some t => some t
              | none => st0.time
            lastActionTs := some now }
        (upsertRoomState db roomId st1 now).1
      else db
    let db2 := touchRoom db1 roomId now
    (db2, (othersInRoom conns roomId sender.sid).map fun c => (c.sid, msg))

/-- The local `updated` history of the `chat:reaction` handler: the room's
chat history rebuilt in memory with the emoji appended to every entry whose
id matches. -/
def reactionUpdatedHistory (db : Db) (roomId msgId emoji : String) :
    List ChatEntry :=
  (getChatHistory db roomId).map fun m =>
    if m.id = msgId then { m with reactions := m.reactions ++ [emoji] } else m

/-- The `chat:reaction` handler: read the room's chat history, rebuild it in
memory with the emoji appended to every entry whose id matches, and emit the
rebuilt history with `io.to(roomId)` — a ROOT-namespace broadcast that
reaches no member of the room namespace; the store is never written. -/
def handleChatReaction (db : Db) (conns : List Conn) (roomId msgId emoji : String) :
    Db × List Emit :=
  let updated := reactionUpdatedHistory db roomId msgId emoji
  (db, ioToRoom conns roomId (Msg.chatHistory updated))

/-- Replace a socket's `socket.data`. -/
def setData (conns : List Conn) (sid : String) (d : Option SockData) : List Conn :=
  conns.map fun c => if c.sid = sid then { c with data := d } else c

/-- The `room:join` handler of the room namespace.  `e1` injects a failure
of the initial `upsertRoomState` (step 1, its own `try/catch`); `e2` injects
a failure of the inner block (`addMember`/`touchRoom`/fetches, thrown before
any of its effects applied).  On a step-1 failure the handler returns after
emitting `room:error` to the sender only; otherwise it stores
`socket.data`, registers the member, touches the room, sends the state and
history snapshots to the sender, broadcasts the member list to the room and
announces the new peer to the others. -/
def handleRoomJoin (db : Db) (conns : List Conn) (sender : Conn)
    (payload : JoinPayload) (now : Int) (e1 e2 : Option String) :
    Db × List Conn × List Emit :=
  let roomId := sender.nspRoom
  match e1 with
  | some err =>
      (db, conns,
        [(sender.sid, Msg.roomError "Failed to create room. Please try again." err)])
  | none =>
    let db1 := (upsertRoomState db roomId emptyPatch now).1
    let conns1 := setData conns sender.sid
      (some ⟨payload.uuid, payload.name, payload.avatar, roomId⟩)
    match e2 with
    | some err =>
        (db1, conns1,
          [(sender.sid, Msg.roomError "Failed to join room. Please try again." err)])
    | none =>
      let db2 := addMember db1 roomId ⟨payload.uuid, payload.name, payload.avatar⟩
      let db3 := touchRoom db2 roomId now
      let stMsg : StatePatch :=
        match getRoomState db3 roomId with
        | some s => toPatch s
        | none => { source := some none, isPlaying := some false, time := some 0 }
      let hist := getChatHistory db3 roomId
      let users := getUsersInRoom db3 roomId
      let emits :=
        [(sender.sid, Msg.roomState stMsg), (sender.sid, Msg.chatHistory hist)]
        ++ ((connsInRoom conns1 roomId).map fun c => (c.sid, Msg.userList users))
        ++ ((othersInRoom conns1 roomId sender.sid).map fun c =>
              (c.sid, Msg.newPeer payload.uuid payload.name payload.avatar))
      (db3, conns1, emits)

/-- The `chat:message` handler: build the entry with a fresh id, the payload
sender and text, empty reactions and the server timestamp; save it, touch
the room and broadcast it to the room.  `eSave` injects a `saveChat`
failure, answered by `room:error` to the sender only. -/
def handleChatMessage (db : Db) (conns : List Conn) (sender : Conn)
    (payloadSender : Sender) (text : String) (newId : String) (now : Int)
    (eSave : Option String) : Db × List Emit :=
  let roomId := sender.nspRoom
  let chatEntry : ChatEntry :=
    { id := newId, sender := payloadSender, text := text, reactions := [], ts := now }
  match eSave with
  | some err =>
      (db, [(sender.sid, Msg.roomError "Failed to save chat message" err)])
  | none =>
    let db1 := saveChat db roomId chatEntry
    let db2 := touchRoom db1 roomId now
    (db2, (connsInRoom conns roomId).map fun c => (c.sid, Msg.chatMessage chatEntry))

/-- The `playlist:update` handler: re-read the state, replace its `playlist`
field, upsert, touch, and emit the new playlist with `io.to(roomId)` — a
ROOT-namespace broadcast that reaches no member of the room namespace. -/
def handlePlaylistUpdate (db : Db) (conns : List Conn) (roomId : String)
    (playlist : List PlaylistItem) (now : Int) : Db × List Emit :=
  let st0 : StatePatch :=
    match getRoomState db roomId with
    | some s => toPatch s
    | none => emptyPatch
  let st1 := { st0 with playlist := some playlist }
  let db1 := (upsertRoomState db roomId st1 now).1
  let db2 := touchRoom db1 roomId now
  (db2, ioToRoom conns roomId (Msg.playlistUpdate playlist))

/-- The `theme:update` handler: re-read the state, replace its `theme`
field, upsert, touch, and emit the new theme with `io.to(roomId)` — a
ROOT-namespace broadcast that reaches no member of the room namespace. -/
def handleThemeUpdate (db : Db) (conns : List Conn) (roomId theme : String)
    (now : Int) : Db × List Emit :=
  let st0 : StatePatch :=
    match getRoomState db roomId with
    | some s => toPatch s
    | none => emptyPatch
  let st1 := { st0 with theme := some theme }
  let db1 := (upsertRoomState db roomId st1 now).1
  let db2 := touchRoom db1 roomId now
  (db2, ioToRoom conns roomId (Msg.themeUpdate theme))

/-- The `webrtc:offer` handler: resolve the target identity to a live
namespace socket; forward `{from, sdp}` to it, or silently do nothing on a
miss. -/
def handleWebrtcOffer (conns : List Conn) (sender : Conn) (toId sdp : String) :
    List Emit :=
  match findSocketByUUID conns sender.nspRoom toId with
  | some t => [(t.sid, Msg.webrtcOffer (sender.data.map (·.uuid)) sdp)]
  | none => []

/-- The `webrtc:answer` handler: identical routing to the offer handler. -/
def handleWebrtcAnswer (conns : List Conn) (sender : Conn) (toId sdp : String) :
    List Emit :=
  match findSocketByUUID conns sender.nspRoom toId with
  | some t => [(t.sid, Msg.webrtcAnswer (sender.data.map (·.uuid)) sdp)]
  | none => []

/-- The `webrtc:ice` handler: guarded on a present candidate, then the same
identity-keyed routing. -/
def handleWebrtcIce (conns : List Conn) (sender : Conn) (toId : String)
    (candidate : Option String) : List Emit :=
  match candidate with
  | none => []
  | some cand =>
    match findSocketByUUID conns sender.nspRoom toId with
    | some t => [(t.sid, Msg.webrtcIce (sender.data.map (·.uuid)) cand)]
    | none => []

theorem findRoom_upsertRoomRow_self (rooms : List (String × RoomRec))
    (roomId : String) (st : StatePatch) (now : Int) :
    findRoom (upsertRoomRow rooms roomId st now) roomId = some ⟨st, now⟩ := by
  induction rooms with
  | nil => simp [upsertRoomRow, findRoom]
  | cons p rest ih =>
      obtain ⟨k, v⟩ := p
      by_cases hk : k = roomId
      · simp [upsertRoomRow, findRoom, hk]
      · simp [upsertRoomRow, findRoom, hk, ih]

theorem findRoom_map_val (rooms : List (String × RoomRec))
    (g : String → RoomRec → RoomRec) (r' : String) :
    findRoom (rooms.map fun p => (p.1, g p.1 p.2)) r'
      = (findRoom rooms r').map (g r') := by
  induction rooms with
  | nil => simp [findRoom]
  | cons p rest ih =>
      obtain ⟨k, v⟩ := p
      by_cases hk : k = r'
      · subst hk
        simp [findRoom]
      · simp [findRoom, hk, ih]

theorem findRoom_touchRows (rooms : List (String × RoomRec))
    (roomId : String) (now : Int) (r' : String) :
    findRoom (rooms.map fun p =>
        (p.1, if p.1 = roomId then { p.2 with lastActive := now } else p.2)) r'
      = (findRoom rooms r').map
          (fun v => if r' = roomId then { v with lastActive := now } else v) := by
  exact findRoom_map_val rooms
    (fun k v => if k = roomId then { v with lastActive := now } else v) r'

theorem getRoomState_touch (db : Db) (roomId : String) (now : Int) (r' : String) :
    getRoomState (touchRoom db roomId now) r' = getRoomState db r' := by
  unfold getRoomState touchRoom
  rw [findRoom_touchRows]
  cases findRoom db.rooms r' <;> by_cases h : r' = roomId <;> simp [h]

theorem roomLastActive_touch_self (db : Db) (roomId : String) (now : Int) :
    roomLastActive (touchRoom db roomId now) roomId
      = (roomLastActive db roomId).map fun _ => now := by
  unfold roomLastActive touchRoom
  rw [findRoom_touchRows]
  cases findRoom db.rooms roomId <;> simp

theorem length_filter_add_length_filter_not {α : Type} (l : List α) (p : α → Bool) :
    (l.filter fun a => p a).length + (l.filter fun a => !p a).length = l.length := by
  induction l with
  | nil => rfl
  | cons a t ih => cases h : p a <;> simp [List.filter_cons, h] <;> omega

/-! ### C1 — shallow merge semantics of `upsertRoomState` -/

/-- C1: for every room and every partial update, `upsertRoomState` applies a
shallow field-level overwrite of the patch onto the existing state (falling
back to defaults when the room is absent), persists the merged result (a
subsequent read returns exactly its default-populated view), and returns it;
a field present in the patch (e.g. `playlist`) fully replaces the old value,
and a field omitted from the patch is preserved unchanged. -/
theorem upsert_shallow_merge (db : Db) (roomId : String) (p : StatePatch) (now : Int) :
    getRoomState (upsertRoomState db roomId p now).1 roomId
        = some (withDefaults (upsertRoomState db roomId p now).2) ∧
    (∀ v, p.playlist = some v → (upsertRoomState db roomId p now).2.playlist = some v) ∧
    (p.playlist = none → (upsertRoomState db roomId p now).2.playlist
        = some ((getRoomState db roomId).getD defaultFull).playlist) ∧
    (∀ v, p.source = some v → (upsertRoomState db roomId p now).2.source = some v) ∧
    (p.source = none → (upsertRoomState db roomId p now).2.source
        = some ((getRoomState db roomId).getD defaultFull).source) ∧
    (∀ v, p.isPlaying = some v → (upsertRoomState db roomId p now).2.isPlaying = some v) ∧
    (p.isPlaying = none → (upsertRoomState db roomId p now).2.isPlaying
        = some ((getRoomState db roomId).getD defaultFull).isPlaying) ∧
    (∀ v, p.time = some v → (upsertRoomState db roomId p now).2.time = some v) ∧
    (p.time = none → (upsertRoomState db roomId p now).2.time
        = some ((getRoomState db roomId).getD defaultFull).time) ∧
    (∀ v, p.theme = some v → (upsertRoomState db roomId p now).2.theme = some v) ∧
    (p.theme = none → (upsertRoomState db roomId p now).2.theme
        = some ((getRoomState db roomId).getD defaultFull).theme) ∧
    (∀ v, p.lastActionTs = some v → (upsertRoomState db roomId p now).2.lastActionTs = some v) ∧
    (p.lastActionTs = none → (upsertRoomState db roomId p now).2.lastActionTs
        = ((getRoomState db roomId).getD defaultFull).lastActionTs) := by
  refine ⟨?_, ?_, ?_, ?_, ?_, ?_, ?_, ?_, ?_, ?_, ?_, ?_, ?_⟩
  · simp [upsertRoomState, getRoomState, findRoom_upsertRoomRow_self]
  all_goals
    first
    | (intro v h; simp [upsertRoomState, spreadPatch, toPatch, jsOr, h])
    | (intro h; simp [upsertRoomState, spreadPatch, toPatch, jsOr, h])

/-- C1 witness: a concrete instantiation where a supplied `playlist` replaces
the old one and the omitted `theme` survives. -/
theorem upsert_shallow_merge_witness :
    (upsertRoomState
        ⟨[("r1", ⟨{ theme := some "neon" }, 3⟩)], [], []⟩ "r1"
        { playlist := some [⟨"t", "u"⟩] } 7).2.playlist = some [⟨"t", "u"⟩] ∧
    (upsertRoomState
        ⟨[("r1", ⟨{ theme := some "neon" }, 3⟩)], [], []⟩ "r1"
        { playlist := some [⟨"t", "u"⟩] } 7).2.theme = some "neon" := by
  constructor
  · exact (upsert_shallow_merge ⟨[("r1", ⟨{ theme := some "neon" }, 3⟩)], [], []⟩
      "r1" { playlist := some [⟨"t", "u"⟩] } 7).2.1 [⟨"t", "u"⟩] rfl
  · have h := (upsert_shallow_merge ⟨[("r1", ⟨{ theme := some "neon" }, 3⟩)], [], []⟩
      "r1" { playlist := some [⟨"t", "u"⟩] } 7).2.2.2.2.2.2.2.2.2.2.1 rfl
    simpa [getRoomState, findRoom, withDefaults] using h

/-! ### C4 — default completeness of reads -/

/-- C4: every successful `getRoomState` read is the stored object merged
against the fixed default shape, so an absent stored field propagates as its
default rather than as a gap; and a freshly created room (created by the
join protocol's `upsertRoomState(roomId, {})` on a store without that room)
reads back as `source = null`, `isPlaying = false`, `time = 0`,
`playlist = []`, `theme = "default"`. -/
theorem get_default_completeness (db : Db) (roomId : String) (now : Int) :
    (∀ st, getRoomState db roomId = some st →
      ∃ row, findRoom db.rooms roomId = some row ∧
        st = withDefaults row.state ∧
        (row.state.source = none → st.source = none) ∧
        (row.state.isPlaying = none → st.isPlaying = false) ∧
        (row.state.time = none → st.time = 0) ∧
        (row.state.playlist = none → st.playlist = []) ∧
        (row.state.theme = none → st.theme = "default")) ∧
    (findRoom db.rooms roomId = none →
      getRoomState (upsertRoomState db roomId emptyPatch now).1 roomId
        = some ⟨none, false, 0, none, [], "default"⟩) := by
  constructor
  · intro st h
    unfold getRoomState at h
    cases hf : findRoom db.rooms roomId with
    | none => rw [hf] at h; exact absurd h (by simp)
    | some row =>
        rw [hf] at h
        refine ⟨row, rfl, ?_⟩
        have hst : st = withDefaults row.state := by
          simpa using h.symm
        subst hst
        refine ⟨rfl, ?_, ?_, ?_, ?_, ?_⟩ <;>
          (intro hnone; simp [withDefaults, hnone])
  · intro h
    have hget : getRoomState db roomId = none := by
      unfold getRoomState
      rw [h]
    simp [upsertRoomState, getRoomState, findRoom_upsertRoomRow_self, hget, h,
      defaultFull, emptyPatch, withDefaults, toPatch, spreadPatch, jsOr]

/-- C4 witness: on the empty store, creating the room `"abc"` and reading it
back yields the fully defaulted state. -/
theorem get_default_completeness_witness :
    getRoomState (upsertRoomState ⟨[], [], []⟩ "abc" emptyPatch 5).1 "abc"
      = some ⟨none, false, 0, none, [], "default"⟩ :=
  (get_default_completeness ⟨[], [], []⟩ "abc" 5).2 rfl

/-! ### C8 — idle reap boundary -/

/-- C8: `cleanupInactiveRooms` deletes exactly the room rows whose
`last_active` is strictly below the cutoff and returns the number removed
(the kept and removed rows repartition the table); a room at `cutoff - 1` is
reaped and a room at or after the cutoff survives. -/
theorem reap_boundary (db : Db) (cutoff : Int) :
    (∀ q, q ∈ (cleanupInactiveRooms db cutoff).1.rooms
        ↔ (q ∈ db.rooms ∧ ¬ q.2.lastActive < cutoff)) ∧
    (cleanupInactiveRooms db cutoff).2 + (cleanupInactiveRooms db cutoff).1.rooms.length
        = db.rooms.length ∧
    (∀ q, q ∈ db.rooms → q.2.lastActive = cutoff - 1 →
        q ∉ (cleanupInactiveRooms db cutoff).1.rooms) ∧
    (∀ q, q ∈ db.rooms → cutoff ≤ q.2.lastActive →
        q ∈ (cleanupInactiveRooms db cutoff).1.rooms) := by
  have hmem : ∀ q, q ∈ (cleanupInactiveRooms db cutoff).1.rooms
      ↔ (q ∈ db.rooms ∧ ¬ q.2.lastActive < cutoff) := by
    intro q
    simp [cleanupInactiveRooms, List.mem_filter]
  refine ⟨hmem, ?_, ?_, ?_⟩
  · exact length_filter_add_length_filter_not db.rooms
      (fun p => decide (p.2.lastActive < cutoff))
  · intro q hq hb hmem'
    have := (hmem q).1 hmem'
    omega
  · intro q hq hle
    exact (hmem q).2 ⟨hq, by omega⟩

/-- C8 witness: with rooms at `last_active` 9 and 10 and cutoff 10, the room
at 9 is reaped and the room at 10 survives, with one room counted as
removed. -/
theorem reap_boundary_witness :
    ("old", (⟨emptyPatch, 9⟩ : RoomRec))
        ∉ (cleanupInactiveRooms
            ⟨[("old", ⟨emptyPatch, 9⟩), ("live", ⟨emptyPatch, 10⟩)], [], []⟩ 10).1.rooms ∧
    ("live", (⟨emptyPatch, 10⟩ : RoomRec))
        ∈ (cleanupInactiveRooms
            ⟨[("old", ⟨emptyPatch, 9⟩), ("live", ⟨emptyPatch, 10⟩)], [], []⟩ 10).1.rooms := by
  constructor
  · exact (reap_boundary
      ⟨[("old", ⟨emptyPatch, 9⟩), ("live", ⟨emptyPatch, 10⟩)], [], []⟩ 10).2.2.1
      ("old", ⟨emptyPatch, 9⟩) (by simp) rfl
  · exact (reap_boundary
      ⟨[("old", ⟨emptyPatch, 9⟩), ("live", ⟨emptyPatch, 10⟩)], [], []⟩ 10).2.2.2
      ("live", ⟨emptyPatch, 10⟩) (by simp) (by decide)

/-! ### C2 — `video:action` mutation policy and relay -/

theorem getRoomState_after_mutation (db : Db) (roomId : String)
    (st1 : StatePatch) (now : Int) :
    getRoomState (touchRoom (upsertRoomState db roomId st1 now).1 roomId now) roomId
      = some (withDefaults
          (spreadPatch (toPatch ((getRoomState db roomId).getD defaultFull)) st1)) := by
  rw [getRoomState_touch]
  simp [upsertRoomState, getRoomState, findRoom_upsertRoomRow_self]

/-- C2: for a `video:action` event with a playback kind from a joined
connection, the stored source is replaced exactly when the event supplies
one, `isPlaying` becomes true for play, false for pause and stays unchanged
for seek/load, `time` is replaced exactly when a target time is supplied,
and `lastActionTs` becomes the server receive time (`now`, independent of
the client's `clientTimeMs`); the event annotated with the receive timestamp
is relayed to every other connection of the room, and never back to the
sender. -/
theorem videoAction_mutation_and_relay
    (db : Db) (conns : List Conn) (sender : Conn) (d : SockData)
    (ev : VideoEvent) (now : Int)
    (hd : sender.data = some d)
    (ht : ev.type = "play" ∨ ev.type = "pause" ∨ ev.type = "seek" ∨ ev.type = "load") :
    ∃ f : PlaybackState,
      getRoomState (handleVideoAction db conns sender ev now).1 d.roomId = some f ∧
      f.source = (match ev.source with
        | some s => some s
        | none => ((getRoomState db d.roomId).getD defaultFull).source) ∧
      f.isPlaying = (if ev.type = "play" then true else if ev.type = "pause" then false
        else ((getRoomState db d.roomId).getD defaultFull).isPlaying) ∧
      f.time = ev.targetTime.getD ((getRoomState db d.roomId).getD defaultFull).time ∧
      f.lastActionTs = some now ∧
      (handleVideoAction db conns sender ev now).2
        = (othersInRoom conns d.roomId sender.sid).map
            (fun c => (c.sid, Msg.videoAction ev now)) ∧
      (∀ t m, (t, m) ∈ (handleVideoAction db conns sender ev now).2 → t ≠ sender.sid) := by
  have hc : (["play", "pause", "seek", "load"].contains ev.type) = true := by
    rcases ht with h | h | h | h <;> simp [h]
  have hrelay : (handleVideoAction db conns sender ev now).2
      = (othersInRoom conns d.roomId sender.sid).map
          (fun c => (c.sid, Msg.videoAction ev now)) := by
    simp [handleVideoAction, hd]
  have hnoecho : ∀ t m, (t, m) ∈ (handleVideoAction db conns sender ev now).2 →
      t ≠ sender.sid := by
    intro t m hm
    rw [hrelay] at hm
    simp only [List.mem_map, othersInRoom, List.mem_filter] at hm
    obtain ⟨c, ⟨_, hcond⟩, heq⟩ := hm
    have : t = c.sid := by
      have := congrArg Prod.fst heq
      simpa using this.symm
    subst this
    simp only [Bool.and_eq_true, Bool.not_eq_true', decide_eq_false_iff_not] at hcond
    exact hcond.2
  have hdb : (handleVideoAction db conns sender ev now).1
      = touchRoom (upsertRoomState db d.roomId
          { source := match ev.source with
              | some s => some (some s)
              | none => (match getRoomState db d.roomId with
                  | some s => toPatch s
                  | none => emptyPatch).source
            isPlaying :=
              if ev.type = "play" then some true
              else if ev.type = "pause" then some false
              else (match getRoomState db d.roomId with
                  | some s => toPatch s
                  | none => emptyPatch).isPlaying
            time := match ev.targetTime with
              | some t => some t
              | none => (match getRoomState db d.roomId with
                  | some s => toPatch s
                  | none => emptyPatch).time
            lastActionTs := some now
            playlist := (match getRoomState db d.roomId with
                | some s => toPatch s
                | none => emptyPatch).playlist
            theme := (match getRoomState db d.roomId with
                | some s => toPatch s
                | none => emptyPatch).theme } now).1 d.roomId now := by
    simp only [handleVideoAction, hd, hc, if_true]
  refine ⟨_, by rw [hdb]; exact getRoomState_after_mutation db d.roomId _ now,
    ?_, ?_, ?_, ?_, hrelay, hnoecho⟩
  · cases hfr : findRoom db.rooms d.roomId <;> cases hs : ev.source <;>
      simp [getRoomState, hfr, hs, spreadPatch, toPatch, jsOr, withDefaults,
        defaultFull, emptyPatch]
  · rcases ht with h | h | h | h <;> cases hfr : findRoom db.rooms d.roomId <;>
      simp [getRoomState, hfr, h, spreadPatch, toPatch, jsOr, withDefaults,
        defaultFull, emptyPatch]
  · cases hfr : findRoom db.rooms d.roomId <;> cases htt : ev.targetTime <;>
      simp [getRoomState, hfr, htt, spreadPatch, toPatch, jsOr, withDefaults,
        defaultFull, emptyPatch]
  · cases hfr : findRoom db.rooms d.roomId <;>
      simp [getRoomState, hfr, spreadPatch, toPatch, jsOr, withDefaults,
        defaultFull, emptyPatch]

/-- C2 witness: a concrete pause event with a target time from a joined
connection, in a two-connection room. -/
theorem videoAction_mutation_and_relay_witness :
    ∃ f : PlaybackState,
      getRoomState (handleVideoAction
          ⟨[("r1", ⟨{ isPlaying := some true, time := some 4 }, 3⟩)], [], []⟩
          [⟨"s1", "r1", some ⟨"u1", "A", "a", "r1"⟩⟩, ⟨"s2", "r1", some ⟨"u2", "B", "b", "r1"⟩⟩]
          ⟨"s1", "r1", some ⟨"u1", "A", "a", "r1"⟩⟩
          ⟨"pause", none, some 9, 111⟩ 42).1 "r1" = some f ∧
      f.isPlaying = false ∧ f.time = 9 ∧ f.lastActionTs = some 42 := by
  obtain ⟨f, h1, _, h3, h4, h5, _, _⟩ := videoAction_mutation_and_relay
    ⟨[("r1", ⟨{ isPlaying := some true, time := some 4 }, 3⟩)], [], []⟩
    [⟨"s1", "r1", some ⟨"u1", "A", "a", "r1"⟩⟩, ⟨"s2", "r1", some ⟨"u2", "B", "b", "r1"⟩⟩]
    ⟨"s1", "r1", some ⟨"u1", "A", "a", "r1"⟩⟩ ⟨"u1", "A", "a", "r1"⟩
    ⟨"pause", none, some 9, 111⟩ 42 rfl (Or.inr (Or.inl rfl))
  exact ⟨f, h1, by simpa using h3, by simpa using h4, h5⟩

/-! ### C3 — join aborts before presence on a step-1 failure -/

/-- C3: when step 1 of the join protocol (ensuring the room state exists)
fails, the join aborts before registering presence — the store and the
membership list are unchanged, so the joining member never appears in the
membership list — and the only effect is a `room:error` notification to the
originating connection; the connection set is untouched (nothing crashes). -/
theorem join_step1_failure_scoped (db : Db) (conns : List Conn) (sender : Conn)
    (payload : JoinPayload) (now : Int) (err : String) (e2 : Option String) :
    (handleRoomJoin db conns sender payload now (some err) e2).1 = db ∧
    (handleRoomJoin db conns sender payload now (some err) e2).2.1 = conns ∧
    getUsersInRoom (handleRoomJoin db conns sender payload now (some err) e2).1
        sender.nspRoom
      = getUsersInRoom db sender.nspRoom ∧
    (payload.uuid ∉ (getUsersInRoom db sender.nspRoom).map (·.uuid) →
      payload.uuid ∉
        (getUsersInRoom (handleRoomJoin db conns sender payload now (some err) e2).1
          sender.nspRoom).map (·.uuid)) ∧
    (handleRoomJoin db conns sender payload now (some err) e2).2.2
      = [(sender.sid, Msg.roomError "Failed to create room. Please try again." err)] ∧
    (∀ t m, (t, m) ∈ (handleRoomJoin db conns sender payload now (some err) e2).2.2 →
      t = sender.sid) := by
  refine ⟨rfl, rfl, rfl, fun h => h, rfl, ?_⟩
  intro t m hm
  simp [handleRoomJoin] at hm
  exact hm.1

/-- C3 witness: a concrete step-1 failure on an empty store leaves the
joining identity out of the membership list. -/
theorem join_step1_failure_scoped_witness :
    "u9" ∉ (getUsersInRoom
        (handleRoomJoin ⟨[], [], []⟩ [⟨"s1", "r1", none⟩] ⟨"s1", "r1", none⟩
          ⟨"u9", "N", "a"⟩ 7 (some "boom") none).1 "r1").map (·.uuid) :=
  (join_step1_failure_scoped ⟨[], [], []⟩ [⟨"s1", "r1", none⟩] ⟨"s1", "r1", none⟩
    ⟨"u9", "N", "a"⟩ 7 "boom" none).2.2.2.1 (by simp [getUsersInRoom])

/-! ### C5 — reaction append and silent no-op on a missing id -/

theorem map_id_of_mem {α : Type} (l : List α) (f : α → α)
    (h : ∀ x ∈ l, f x = x) : l.map f = l := by
  induction l with
  | nil => rfl
  | cons a t ih =>
      simp only [List.map_cons]
      rw [h a (by simp), ih fun x hx => h x (by simp [hx])]

/-- C5 counterexample: a reaction whose id matches an existing entry, with a
member connected to the room namespace, is delivered to nobody (the
`io.to(roomId)` broadcast targets the root namespace) and the durable entry
keeps its empty reaction list — the appended emoji is observable nowhere, so
the members do not converge on a reaction list containing it. -/
theorem reaction_broadcast_dead_letter_cex :
    (handleChatReaction
        ⟨[], [("r1", ⟨"m1", ⟨"u", "n", "a"⟩, "hi", [], 1⟩)], []⟩
        [⟨"s1", "r1", some ⟨"u", "n", "a", "r1"⟩⟩] "r1" "m1" "x").2 = [] ∧
    (handleChatReaction
        ⟨[], [("r1", ⟨"m1", ⟨"u", "n", "a"⟩, "hi", [], 1⟩)], []⟩
        [⟨"s1", "r1", some ⟨"u", "n", "a", "r1"⟩⟩] "r1" "m1" "x").1
      = ⟨[], [("r1", ⟨"m1", ⟨"u", "n", "a"⟩, "hi", [], 1⟩)], []⟩ ∧
    getChatHistory (handleChatReaction
        ⟨[], [("r1", ⟨"m1", ⟨"u", "n", "a"⟩, "hi", [], 1⟩)], []⟩
        [⟨"s1", "r1", some ⟨"u", "n", "a", "r1"⟩⟩] "r1" "m1" "x").1 "r1"
      = [⟨"m1", ⟨"u", "n", "a"⟩, "hi", [], 1⟩] :=
  ⟨rfl, rfl, by decide⟩

/-- C5 amended: a `chat:reaction` event rebuilds the history only in memory
— entrywise, the entry whose id matches gains the emoji appended to its
reactions, every other entry is unchanged, and when no entry matches the
rebuilt history equals the original (a silent no-op creating no new entry)
— but the rebuilt history is emitted with `io.to(roomId)` into the root
namespace, so no member of the room receives it, and the store is left
unchanged: every member's durable history stays the one without the
reaction. -/
theorem reaction_rebuild_unobserved_amended (db : Db) (conns : List Conn)
    (roomId msgId emoji : String) :
    (∀ i : Nat, (reactionUpdatedHistory db roomId msgId emoji)[i]?
        = ((getChatHistory db roomId)[i]?).map
            (fun m => if m.id = msgId
              then { m with reactions := m.reactions ++ [emoji] } else m)) ∧
    (reactionUpdatedHistory db roomId msgId emoji).length
        = (getChatHistory db roomId).length ∧
    ((∀ m ∈ getChatHistory db roomId, m.id ≠ msgId) →
      reactionUpdatedHistory db roomId msgId emoji = getChatHistory db roomId) ∧
    (handleChatReaction db conns roomId msgId emoji).2 = [] ∧
    (handleChatReaction db conns roomId msgId emoji).1 = db ∧
    getChatHistory (handleChatReaction db conns roomId msgId emoji).1 roomId
        = getChatHistory db roomId := by
  refine ⟨?_, by simp [reactionUpdatedHistory], ?_, ?_, rfl, rfl⟩
  · intro i
    simp [reactionUpdatedHistory, List.getElem?_map]
  · intro h
    exact map_id_of_mem _ _ fun m hm => by simp [h m hm]
  · simp only [handleChatReaction]
    exact ioToRoom_eq_nil conns roomId _

/-- C5 amended witness: reacting with an id absent from a one-entry history
rebuilds the history unchanged, and the emit delivers to nobody. -/
theorem reaction_rebuild_unobserved_witness :
    reactionUpdatedHistory
        ⟨[], [("r1", ⟨"m1", ⟨"u", "n", "a"⟩, "hi", [], 1⟩)], []⟩ "r1" "zz" "x"
      = getChatHistory
          ⟨[], [("r1", ⟨"m1", ⟨"u", "n", "a"⟩, "hi", [], 1⟩)], []⟩ "r1" ∧
    (handleChatReaction
        ⟨[], [("r1", ⟨"m1", ⟨"u", "n", "a"⟩, "hi", [], 1⟩)], []⟩
        [⟨"s1", "r1", some ⟨"u", "n", "a", "r1"⟩⟩] "r1" "zz" "x").2 = [] := by
  obtain ⟨_, _, h3, h4, _, _⟩ := reaction_rebuild_unobserved_amended
    ⟨[], [("r1", ⟨"m1", ⟨"u", "n", "a"⟩, "hi", [], 1⟩)], []⟩
    [⟨"s1", "r1", some ⟨"u", "n", "a", "r1"⟩⟩] "r1" "zz" "x"
  exact ⟨h3 (by decide), h4⟩

/-! ### C7 — identity-keyed signaling: forward or silent miss -/

/-- C7: a signaling message (offer/answer/ice) routed to a target identity
with no live connection in the namespace completes as a silent no-op —
nothing is delivered and nothing (in particular no error) reaches the
sender; when a live connection for the identity exists, the payload is
forwarded to exactly that connection together with the sender's identity. -/
theorem signaling_route_or_miss (conns : List Conn) (sender : Conn)
    (toId sdp cand : String) :
    (findSocketByUUID conns sender.nspRoom toId = none →
      handleWebrtcOffer conns sender toId sdp = [] ∧
      handleWebrtcAnswer conns sender toId sdp = [] ∧
      handleWebrtcIce conns sender toId (some cand) = []) ∧
    (∀ t, findSocketByUUID conns sender.nspRoom toId = some t →
      handleWebrtcOffer conns sender toId sdp
          = [(t.sid, Msg.webrtcOffer (sender.data.map (·.uuid)) sdp)] ∧
      handleWebrtcAnswer conns sender toId sdp
          = [(t.sid, Msg.webrtcAnswer (sender.data.map (·.uuid)) sdp)] ∧
      handleWebrtcIce conns sender toId (some cand)
          = [(t.sid, Msg.webrtcIce (sender.data.map (·.uuid)) cand)]) := by
  constructor
  · intro h
    refine ⟨?_, ?_, ?_⟩ <;> simp [handleWebrtcOffer, handleWebrtcAnswer,
      handleWebrtcIce, h]
  · intro t h
    refine ⟨?_, ?_, ?_⟩ <;> simp [handleWebrtcOffer, handleWebrtcAnswer,
      handleWebrtcIce, h]

/-- C7 witness: with one joined peer in the namespace, routing to a missing
identity delivers nothing and routing to the live identity forwards the
payload with the sender's identity. -/
theorem signaling_route_or_miss_witness :
    handleWebrtcOffer [⟨"s2", "r1", some ⟨"u2", "B", "b", "r1"⟩⟩]
        ⟨"s1", "r1", some ⟨"u1", "A", "a", "r1"⟩⟩ "ghost" "sdp0" = [] ∧
    handleWebrtcOffer [⟨"s2", "r1", some ⟨"u2", "B", "b", "r1"⟩⟩]
        ⟨"s1", "r1", some ⟨"u1", "A", "a", "r1"⟩⟩ "u2" "sdp0"
      = [("s2", Msg.webrtcOffer (some "u1") "sdp0")] := by
  constructor
  · exact ((signaling_route_or_miss [⟨"s2", "r1", some ⟨"u2", "B", "b", "r1"⟩⟩]
      ⟨"s1", "r1", some ⟨"u1", "A", "a", "r1"⟩⟩ "ghost" "sdp0" "c").1
      (by simp [findSocketByUUID, List.find?])).1
  · exact ((signaling_route_or_miss [⟨"s2", "r1", some ⟨"u2", "B", "b", "r1"⟩⟩]
      ⟨"s1", "r1", some ⟨"u1", "A", "a", "r1"⟩⟩ "u2" "sdp0" "c").2
      ⟨"s2", "r1", some ⟨"u2", "B", "b", "r1"⟩⟩
      (by simp [findSocketByUUID, List.find?, connsInRoom])).1

/-! ### C10 — the reaction handler performs no store write -/

/-- C10: handling `chat:reaction` leaves the durable store entirely
unchanged — no room upsert, no touch, no chat write — so every subsequent
durable chat-history read is unchanged, and the `chat:history` snapshot sent
to a member who joins afterwards is the original history without the
reaction. -/
theorem reaction_no_store_write (db : Db) (conns : List Conn)
    (roomId msgId emoji : String) :
    (handleChatReaction db conns roomId msgId emoji).1 = db ∧
    (∀ r', getChatHistory (handleChatReaction db conns roomId msgId emoji).1 r'
      = getChatHistory db r') ∧
    (∀ r', roomLastActive (handleChatReaction db conns roomId msgId emoji).1 r'
      = roomLastActive db r') ∧
    (∀ (conns' : List Conn) (sender : Conn) (payload : JoinPayload) (now : Int),
      (sender.sid, Msg.chatHistory (getChatHistory db sender.nspRoom)) ∈
        (handleRoomJoin (handleChatReaction db conns roomId msgId emoji).1
          conns' sender payload now none none).2.2) := by
  refine ⟨rfl, fun _ => rfl, fun _ => rfl, ?_⟩
  intro conns' sender payload now
  simp only [handleRoomJoin, handleChatReaction]
  have hsame : getChatHistory
      (touchRoom
        (addMember (upsertRoomState db sender.nspRoom emptyPatch now).1 sender.nspRoom
          ⟨payload.uuid, payload.name, payload.avatar⟩)
        sender.nspRoom now)
      sender.nspRoom = getChatHistory db sender.nspRoom := rfl
  simp [hsame]

/-! ### C6 — lifetime touch: refuted for reactions, holds for the rest -/

/-- C6 counterexample: a concrete `chat:reaction` event on a room whose
`last_active` is 5 leaves the store — in particular `last_active` — exactly
as it was: the handler calls no `touchRoom`, so the room's `lastActiveAt` is
not updated on this room-scoped event, contrary to the claim. -/
theorem reaction_skips_touch_cex :
    (handleChatReaction
        ⟨[("r1", ⟨emptyPatch, 5⟩)], [("r1", ⟨"m1", ⟨"u", "n", "a"⟩, "hi", [], 1⟩)], []⟩
        [⟨"s1", "r1", some ⟨"u", "n", "a", "r1"⟩⟩] "r1" "m1" "x").1
      = ⟨[("r1", ⟨emptyPatch, 5⟩)], [("r1", ⟨"m1", ⟨"u", "n", "a"⟩, "hi", [], 1⟩)], []⟩ ∧
    roomLastActive (handleChatReaction
        ⟨[("r1", ⟨emptyPatch, 5⟩)], [("r1", ⟨"m1", ⟨"u", "n", "a"⟩, "hi", [], 1⟩)], []⟩
        [⟨"s1", "r1", some ⟨"u", "n", "a", "r1"⟩⟩] "r1" "m1" "x").1 "r1" = some 5 :=
  ⟨rfl, by decide⟩

theorem roomLastActive_after_upsert_touch (db : Db) (r : String)
    (p : StatePatch) (now : Int) :
    roomLastActive (touchRoom (upsertRoomState db r p now).1 r now) r = some now := by
  rw [roomLastActive_touch_self]
  simp [upsertRoomState, roomLastActive, findRoom_upsertRoomRow_self]

/-- C6 amended: every store-dependent room-scoped event handler except
`chat:reaction` updates the room's `lastActiveAt` to the receipt time —
`video:action` (for playback kinds), `chat:message` (when the room row
exists; `touchRoom` is a keyed SQL update), `playlist:update`,
`theme:update` and a successful join all end with `last_active = now` —
whereas the `chat:reaction` handler performs no store write at all, so a
reaction does not extend the room lifetime. -/
theorem touch_on_events_amended
    (db : Db) (conns : List Conn) (sender : Conn) (d : SockData) (ev : VideoEvent)
    (ps : Sender) (text newId roomId theme msgId emoji : String)
    (playlist : List PlaylistItem) (payload : JoinPayload) (now : Int) :
    (sender.data = some d →
      (ev.type = "play" ∨ ev.type = "pause" ∨ ev.type = "seek" ∨ ev.type = "load") →
      roomLastActive (handleVideoAction db conns sender ev now).1 d.roomId = some now) ∧
    ((∃ row, findRoom db.rooms sender.nspRoom = some row) →
      roomLastActive (handleChatMessage db conns sender ps text newId now none).1
        sender.nspRoom = some now) ∧
    roomLastActive (handlePlaylistUpdate db conns roomId playlist now).1 roomId
      = some now ∧
    roomLastActive (handleThemeUpdate db conns roomId theme now).1 roomId = some now ∧
    roomLastActive (handleRoomJoin db conns sender payload now none none).1
      sender.nspRoom = some now ∧
    (handleChatReaction db conns roomId msgId emoji).1 = db := by
  refine ⟨?_, ?_, ?_, ?_, ?_, rfl⟩
  · intro hd ht
    have hc : (["play", "pause", "seek", "load"].contains ev.type) = true := by
      rcases ht with h | h | h | h <;> simp [h]
    simp only [handleVideoAction, hd, hc, if_true]
    exact roomLastActive_after_upsert_touch db d.roomId _ now
  · rintro ⟨row, hrow⟩
    simp only [handleChatMessage]
    rw [roomLastActive_touch_self]
    have : roomLastActive (saveChat db sender.nspRoom
        ⟨newId, ps, text, [], now⟩) sender.nspRoom = some row.lastActive := by
      simp [saveChat, roomLastActive, hrow]
    rw [this]
    rfl
  · simp only [handlePlaylistUpdate]
    exact roomLastActive_after_upsert_touch db roomId _ now
  · simp only [handleThemeUpdate]
    exact roomLastActive_after_upsert_touch db roomId _ now
  · simp only [handleRoomJoin]
    rw [roomLastActive_touch_self]
    simp [addMember, roomLastActive, upsertRoomState, findRoom_upsertRoomRow_self]

/-- C6 amended witness: a concrete play action from a joined connection sets
the room's `last_active` to the receipt time 42. -/
theorem touch_on_events_amended_witness :
    roomLastActive (handleVideoAction
        ⟨[("r1", ⟨emptyPatch, 5⟩)], [], []⟩
        [⟨"s1", "r1", some ⟨"u1", "A", "a", "r1"⟩⟩]
        ⟨"s1", "r1", some ⟨"u1", "A", "a", "r1"⟩⟩
        ⟨"play", none, none, 7⟩ 42).1 "r1" = some 42 :=
  (touch_on_events_amended
    ⟨[("r1", ⟨emptyPatch, 5⟩)], [], []⟩
    [⟨"s1", "r1", some ⟨"u1", "A", "a", "r1"⟩⟩]
    ⟨"s1", "r1", some ⟨"u1", "A", "a", "r1"⟩⟩ ⟨"u1", "A", "a", "r1"⟩
    ⟨"play", none, none, 7⟩ ⟨"u1", "A", "a"⟩ "t" "id" "r1" "th" "m" "e"
    [] ⟨"u1", "A", "a"⟩ 42).1 rfl (Or.inl rfl)

/-! ### C9 — disconnect effects: sequential, not independent -/

